import Mathlib

/-!
Verification of the cloudpickle core of this repository
(`joblib/externals/cloudpickle/cloudpickle.py`) against its
natural-language specification.

Modelling conventions (shallow embedding):
* Python object identity is modelled by a natural-number object id:
  `a is b` in Python becomes equality of the ids.
* A Python `dict` is modelled as an association list with unique keys
  (`PyDict`); iteration order is the list order, as in CPython.
* Process-global mutable state (the dynamic-class tracker registries, the
  code-globals memo cache, the by-value module set) is modelled by explicit
  state passing: a function that mutates a registry takes it as an argument
  and returns the updated registry together with its result.
* Python exceptions are modelled with `Except`: a function that can raise
  returns `Except String α`.
-/

namespace Cloudpickle

/-- A Python `dict` whose values are object ids (object identity tokens). -/
abbrev PyDict := List (String × Nat)

/-- `d.pop(k)`: remove the entry with key `k` (used only when present). -/
def dictPop (d : PyDict) (k : String) : PyDict :=
  d.filter (fun p => !(p.1 == k))

/-- `d[k] = v`: overwrite in place when the key is present, else append. -/
def dictSet (d : PyDict) (k : String) (v : Nat) : PyDict :=
  if (d.lookup k).isSome then
    d.map (fun p => if p.1 == k then (k, v) else p)
  else
    d ++ [(k, v)]

/-- `d.update(src)`: `d[k] = v` for each entry of `src`, in order. -/
def dictUpdate (d src : PyDict) : PyDict :=
  src.foldl (fun acc kv => dictSet acc kv.1 kv.2) d

/-! ## `_extract_class_dict` (cloudpickle.py lines 278-286)

```python
def _extract_class_dict(cls):
    clsdict = dict(cls.__dict__)
    if len(cls.__bases__) == 1:
        inherited_dict = cls.__bases__[0].__dict__
        for name, value in inherited_dict.items():
            if name in clsdict and clsdict[name] is value:
                clsdict.pop(name)
    return clsdict
```

The class is represented by its own `__dict__` and the list of the
`__dict__`s of its bases (`cls.__bases__[k].__dict__`).
-/

/-- One step of the loop body of `_extract_class_dict`. -/
def extractClassDictStep (acc : PyDict) (nv : String × Nat) : PyDict :=
  if acc.lookup nv.1 = some nv.2 then dictPop acc nv.1 else acc

/-- Embedding of `_extract_class_dict`. -/
def _extract_class_dict (clsdict : PyDict) (baseDicts : List PyDict) : PyDict :=
  match baseDicts with
  | [inherited] => inherited.foldl extractClassDictStep clsdict
  | _ => clsdict

/-! ## `_empty_cell_value` and `_cell_reduce` (cloudpickle.py lines 310-316, 414-417)

```python
def _cell_reduce(obj):
    """Cell (containing values of a function's free variables) reducer."""
    f = obj.cell_contents
    return _empty_cell_value if f is None else f
```

A Python value as seen by the cell reducer: `None`, the distinguished
`_empty_cell_value` sentinel, or any other object (by id).  A cell is either
empty (accessing `cell_contents` raises `ValueError`) or holds a value.
-/

inductive PyVal where
  | pyNone : PyVal
  | emptyCellSentinel : PyVal
  | obj : Nat → PyVal
deriving DecidableEq, Repr

structure PyCell where
  contents : Option PyVal
deriving DecidableEq, Repr

/-- Embedding of `_cell_reduce`.  `obj.cell_contents` raises `ValueError` on
an empty cell and the source does not guard against that, so the embedding
returns `Except.error` there; otherwise the source returns the sentinel when
the contents `is None`, and the bare contents (not a constructor/arguments
pair) otherwise. -/
def _cell_reduce (obj : PyCell) : Except String PyVal :=
  match obj.contents with
  | Option.none => Except.error "ValueError: Cell is empty"
  | Option.some f =>
      Except.ok (if f = PyVal.pyNone then PyVal.emptyCellSentinel else f)

/-! ## `_file_reduce` (cloudpickle.py lines 419-429)

```python
def _file_reduce(obj):
    """Save a file."""
    if obj.closed:
        raise pickle.PicklingError("Cannot pickle closed files")
    if obj.mode == 'r':
        return io.StringIO, (obj.read(),)
    else:
        raise pickle.PicklingError("Cannot pickle files in write mode")
```
-/

/-- A text stream: its mode string, closed flag, full content and current
read position. -/
structure PyFile where
  mode : String
  closed : Bool
  content : List Char
  pos : Nat
deriving DecidableEq, Repr

/-- `obj.read()`: the remaining content from the current position. -/
def fileRead (f : PyFile) : List Char :=
  f.content.drop f.pos

/-- Embedding of `_file_reduce`: on success it returns the argument of the
`io.StringIO` constructor recorded in the reduction pair. -/
def _file_reduce (obj : PyFile) : Except String (List Char) :=
  if obj.closed then
    Except.error "Cannot pickle closed files"
  else if obj.mode = "r" then
    Except.ok (fileRead obj)
  else
    Except.error "Cannot pickle files in write mode"

/-- The `io.StringIO` constructor: a fresh readable stream over `s`. -/
def ioStringNew (s : List Char) : PyFile :=
  { mode := "r", closed := false, content := s, pos := 0 }

/-! ## `_function_setstate` (cloudpickle.py lines 486-498)

```python
def _function_setstate(obj, state):
    state, slotstate = state
    obj.__dict__.update(state)
    obj_globals = obj.__globals__
    obj_globals.clear()
    obj_globals.update(slotstate)
```

A function object is represented by its `__dict__` (instance attributes),
its `__globals__` mapping and its ordered list of closure cells
(`__closure__`); a cell holds `Option.none` when empty.  The source touches
only `__dict__` and `__globals__`, so the embedding carries `closure`
through unchanged.
-/

structure PyFunc where
  dict : PyDict
  globals : PyDict
  closure : List (Option Nat)
deriving DecidableEq, Repr

/-- Embedding of `_function_setstate`; `state` is the
`(state, slotstate)` pair destructured by the first source line. -/
def _function_setstate (obj : PyFunc) (state : PyDict × PyDict) : PyFunc :=
  { obj with
    dict := dictUpdate obj.dict state.1,
    globals := dictUpdate [] state.2 }

/-! ## Dynamic class/enum tracker and skeleton reconstruction
(cloudpickle.py lines 79-81, 318-350, 352-390, 431-470)

The process-wide registries

```python
_DYNAMIC_CLASS_TRACKER_BY_CLASS = weakref.WeakKeyDictionary()
_DYNAMIC_CLASS_TRACKER_BY_ID = weakref.WeakValueDictionary()
```

are modelled as association lists, passed and returned explicitly.  A
reconstructed dynamic type (class or enum) is a record carrying the
construction arguments plus a fresh object id allocated by a counter in the
tracker state, so that "two calls built two distinct objects" is expressible
as inequality of object ids.
-/

/-- A dynamic class built by `_make_skeleton_class`:
`Meta(name, bases, clsdict)` with `clsdict` filled from `type_kwargs`. -/
structure PyClassObj where
  objId : Nat
  name : String
  bases : List Nat
  clsdict : List (String × Option String)
deriving DecidableEq, Repr

/-- A dynamic enum built by `_make_skeleton_enum`, with its
`__module__`/`__qualname__` and its members (name/value pairs installed by
the member-construction loop). -/
structure PyEnumObj where
  objId : Nat
  name : String
  qualname : String
  module : String
  bases : List Nat
  members : List (String × Nat)
deriving DecidableEq, Repr

/-- An entry of `_DYNAMIC_CLASS_TRACKER_BY_ID`: either kind of dynamic type
may be registered under a tracking id. -/
inductive DynType where
  | cls : PyClassObj → DynType
  | enm : PyEnumObj → DynType
deriving DecidableEq, Repr

/-- The object id of a registered dynamic type. -/
def dynId : DynType → Nat
  | DynType.cls c => c.objId
  | DynType.enm e => e.objId

/-- Destination-process tracker state: the two registries plus a fresh-id
counter standing for the allocator of new type objects. -/
structure TrackerState where
  byId : List (String × DynType)
  byClass : List (Nat × String)
  nextObj : Nat
deriving DecidableEq, Repr

/-- Embedding of `_make_skeleton_class(type_constructor, name, bases,
type_kwargs, class_tracker_id, extra)`.  The source first returns the
registered class when `class_tracker_id` is not `None` and already present
in `_DYNAMIC_CLASS_TRACKER_BY_ID`; otherwise it builds a fresh class
(`clsdict` filled from `type_kwargs`) and, when `class_tracker_id` is not
`None`, records it in both registries.  `type_constructor` and `extra` are
accepted and ignored, as in the source (the source builds its own `Meta`
metaclass and documents `extra` as reserved). -/
def _make_skeleton_class (st : TrackerState) (type_constructor : Nat)
    (name : String) (bases : List Nat)
    (type_kwargs : List (String × Option String))
    (class_tracker_id : Option String) (extra : Option Nat) :
    DynType × TrackerState :=
  let cached : Option DynType :=
    match class_tracker_id with
    | Option.some tid => st.byId.lookup tid
    | Option.none => Option.none
  match cached with
  | Option.some obj => (obj, st)
  | Option.none =>
      let _ := type_constructor
      let _ := extra
      let cls : PyClassObj :=
        { objId := st.nextObj, name := name, bases := bases,
          clsdict := type_kwargs }
      let obj := DynType.cls cls
      match class_tracker_id with
      | Option.some tid =>
          (obj,
            { byId := (tid, obj) :: st.byId,
              byClass := (cls.objId, tid) :: st.byClass,
              nextObj := st.nextObj + 1 })
      | Option.none => (obj, { st with nextObj := st.nextObj + 1 })

/-- Embedding of `_make_skeleton_enum(bases, name, qualname, members,
module, class_tracker_id, extra)`, with the same registry discipline as
`_make_skeleton_class`; the enum body (module, qualname, member records) is
carried in the built `PyEnumObj`. -/
def _make_skeleton_enum (st : TrackerState) (bases : List Nat)
    (name qualname : String) (members : List (String × Nat))
    (module : String) (class_tracker_id : Option String)
    (extra : Option Nat) : DynType × TrackerState :=
  let cached : Option DynType :=
    match class_tracker_id with
    | Option.some tid => st.byId.lookup tid
    | Option.none => Option.none
  match cached with
  | Option.some obj => (obj, st)
  | Option.none =>
      let _ := extra
      let e : PyEnumObj :=
        { objId := st.nextObj, name := name, qualname := qualname,
          module := module, bases := bases, members := members }
      let obj := DynType.enm e
      match class_tracker_id with
      | Option.some tid =>
          (obj,
            { byId := (tid, obj) :: st.byId,
              byClass := (e.objId, tid) :: st.byClass,
              nextObj := st.nextObj + 1 })
      | Option.none => (obj, { st with nextObj := st.nextObj + 1 })

/-! ## `_dynamic_class_reduce` (cloudpickle.py lines 431-470)

```python
def _dynamic_class_reduce(obj):
    if obj is type(None):
        return type, (None,)
    type_constructor = type(obj)
    name = obj.__name__
    bases = obj.__bases__
    dict_items = _extract_class_dict(obj).items()
    module = obj.__module__
    qualname = getattr(obj, "__qualname__", None)
    class_tracker_id = _DYNAMIC_CLASS_TRACKER_BY_CLASS.get(obj)
    type_kwargs = {"__module__": module, "__qualname__": qualname}
    return _make_skeleton_class, (type_constructor, name, bases, type_kwargs,
                                class_tracker_id, None)
```

Note: the source only *reads* `_DYNAMIC_CLASS_TRACKER_BY_CLASS` (via
`.get`); it never inserts into either registry and `uuid` /
`_DYNAMIC_CLASS_TRACKER_LOCK` are never used, so the embedding returns the
by-class registry unchanged.  (`dict_items` is computed by the source and
then discarded: it does not appear in the returned tuple.)
-/

/-- A serialization-side class object as seen by `_dynamic_class_reduce`. -/
structure SrcClass where
  objId : Nat
  isNoneType : Bool
  name : String
  bases : List Nat
  module : String
  qualname : Option String
deriving DecidableEq, Repr

/-- The argument tuple passed to `_make_skeleton_class` in the reduction. -/
structure SkeletonClassArgs where
  name : String
  bases : List Nat
  type_kwargs : List (String × Option String)
  class_tracker_id : Option String
deriving DecidableEq, Repr

/-- The result of `_dynamic_class_reduce`: either the `NoneType` special
case `(type, (None,))` or a `_make_skeleton_class` reduction. -/
inductive ClassReduceResult where
  | reduceNoneType : ClassReduceResult
  | reduceSkeleton : SkeletonClassArgs → ClassReduceResult
deriving DecidableEq, Repr

/-- Embedding of `_dynamic_class_reduce`; the serialization-side registry
`_DYNAMIC_CLASS_TRACKER_BY_CLASS` (object id to tracking id) is passed and
returned explicitly. -/
def _dynamic_class_reduce (byClass : List (Nat × String)) (obj : SrcClass) :
    ClassReduceResult × List (Nat × String) :=
  if obj.isNoneType then (ClassReduceResult.reduceNoneType, byClass)
  else
    (ClassReduceResult.reduceSkeleton
      { name := obj.name, bases := obj.bases,
        type_kwargs :=
          [("__module__", Option.some obj.module),
           ("__qualname__", obj.qualname)],
        class_tracker_id := byClass.lookup obj.objId },
      byClass)

/-! ## Module resolution: `_whichmodule`, `_should_pickle_by_reference`
and the by-value module set (cloudpickle.py lines 77, 87-183)

`sys.modules` is modelled as an ordered association list from module name to
`Option PyModule` (`Option.none` stands for an entry whose value is the
Python `None`).  `_getattribute(module, name)[0]` is modelled as a function
from the looked-up name to a result that is either the found object's id or
a raised exception.
-/

/-- Result of `_getattribute(module, name)[0]`. -/
inductive LookupRes where
  | found : Nat → LookupRes
  | raisedExc : LookupRes

structure PyModule where
  getattrib : String → LookupRes
  /-- `Option.none`: the module has no `__file__` attribute;
  `Option.some Option.none`: `module.__file__ is None`. -/
  file : Option (Option String)

structure Sys where
  modules : List (String × Option PyModule)

/-- `sys.modules.get(module_name, None)`: `Option.none` both when the key is
absent and when the stored value is the Python `None`. -/
def sysGet (s : Sys) (n : String) : Option PyModule :=
  match s.modules.lookup n with
  | Option.some (Option.some m) => Option.some m
  | _ => Option.none

/-- An object as seen by `_whichmodule` / `_should_pickle_by_reference`:
its identity, whether it is a `type` instance, and its `__module__` /
`__name__` attributes (`Option.none` when absent, matching
`getattr(obj, attr, None)`). -/
structure PyObjRef where
  objId : Nat
  isType : Bool
  dunderModule : Option String
  dunderName : Option String

/-- The module-scan loop of `_whichmodule`:

```python
for module_name, module in list(sys.modules.items()):
    if module_name == '__main__' or module is None:
        continue
    try:
        if _getattribute(module, name)[0] is obj:
            return module_name
    except Exception:
        pass
return None
```
-/
def whichScan (objId : Nat) (name : String) :
    List (String × Option PyModule) → Option String
  | [] => Option.none
  | (mname, m) :: rest =>
      if mname = "__main__" then whichScan objId name rest
      else
        match m with
        | Option.none => whichScan objId name rest
        | Option.some md =>
            match md.getattrib name with
            | LookupRes.raisedExc => whichScan objId name rest
            | LookupRes.found v =>
                if v = objId then Option.some mname
                else whichScan objId name rest

/-- Embedding of `_whichmodule` (cloudpickle.py lines 112-138). -/
def _whichmodule (obj : PyObjRef) (name : String) (sys : Sys) :
    Option String :=
  if obj.isType ∧ obj.dunderModule = Option.some "__main__" then
    Option.some "__main__"
  else
    match obj.dunderModule with
    | Option.some m => Option.some m
    | Option.none => whichScan obj.objId name sys.modules

/-- The default value of `_PICKLE_BY_VALUE_MODULES = set()`. -/
def initialPickleByValueModules : List String := []

/-- Modelled from the spec: the body of `register_pickle_by_value` is a bare
`pass` stub in the source, so per the spec ("`register_by_value(module)` ...
mutate a process-wide set S consulted by the Reference Resolver") it adds
the module's name to the by-value set. -/
def register_pickle_by_value (s : List String) (m : String) : List String :=
  if m ∈ s then s else m :: s

/-- Modelled from the spec: the body of `unregister_pickle_by_value` is a
bare `pass` stub in the source, so per the spec it removes the module's name
from the by-value set. -/
def unregister_pickle_by_value (s : List String) (m : String) :
    List String :=
  s.filter (fun x => !(x == m))

/-- Embedding of `_should_pickle_by_reference` (cloudpickle.py lines
140-183).  The process-wide set `_PICKLE_BY_VALUE_MODULES` is the explicit
`byValue` argument. -/
def _should_pickle_by_reference (obj : PyObjRef) (nameArg : Option String)
    (sys : Sys) (byValue : List String) : Bool :=
  let name : Option String :=
    match nameArg with
    | Option.none => obj.dunderName
    | Option.some n => Option.some n
  match name with
  | Option.none => false
  | Option.some name =>
      match _whichmodule obj name sys with
      | Option.none => false
      | Option.some module_name =>
          if module_name = "__main__" then false
          else
            match sysGet sys module_name with
            | Option.none => false
            | Option.some module =>
                if module_name ∈ byValue then false
                else
                  match module.file with
                  | Option.none => true
                  | Option.some Option.none => false
                  | Option.some (Option.some _) => true

/-! ## `_extract_code_globals` and `_walk_global_ops`
(cloudpickle.py lines 84, 185-205, 258-276)

```python
GLOBAL_OPS = (STORE_GLOBAL, DELETE_GLOBAL, LOAD_GLOBAL)

def _walk_global_ops(code):
    for instr in dis.get_instructions(code):
        op = instr.opcode
        if op in GLOBAL_OPS:
            yield instr

def _extract_code_globals(co):
    if co in _extract_code_globals_cache:
        return _extract_code_globals_cache[co]
    out_names = set()
    for instr in _walk_global_ops(co):
        if instr.opname in ("LOAD_GLOBAL", "STORE_GLOBAL", "DELETE_GLOBAL"):
            out_names.add(co.co_names[instr.arg])
    if co.co_consts:
        for const in co.co_consts:
            if isinstance(const, types.CodeType):
                out_names.update(_extract_code_globals(const))
    _extract_code_globals_cache[co] = out_names
    return out_names
```

A code object carries an identity token (its address, used as the key of
the weak identity-keyed cache `_extract_code_globals_cache`), its
`co_names` tuple, its instruction stream as `(opcode, arg)` pairs, and its
`co_consts` where `Option.none` stands for a non-code constant (the source
recurses only into `isinstance(const, types.CodeType)` constants).  Python
sets of names are modelled as duplicate-free `List String` built with
`setAdd` / `setUnionL`.  The cache is threaded through explicitly.
-/

inductive CodeObj where
  | mkCode : Nat → List String → List (Nat × Nat) → List (Option CodeObj) →
      CodeObj

/-- The identity token of a code object. -/
def coId : CodeObj → Nat
  | CodeObj.mkCode i _ _ _ => i

/-- Opcode values of `STORE_GLOBAL`, `DELETE_GLOBAL`, `LOAD_GLOBAL` from
`opcode.opmap` (cloudpickle.py lines 258-261). -/
def GLOBAL_OPS : List Nat := [97, 98, 116]

/-- Embedding of `_walk_global_ops`: the instructions whose opcode is in
`GLOBAL_OPS`. -/
def _walk_global_ops (instrs : List (Nat × Nat)) : List (Nat × Nat) :=
  instrs.filter (fun i => GLOBAL_OPS.contains i.1)

/-- The `_extract_code_globals_cache` weak dictionary, keyed by code-object
identity. -/
abbrev GlobalsCache := List (Nat × List String)

/-- `out_names.add(s)` on a set modelled as a duplicate-free list. -/
def setAdd (a : List String) (s : String) : List String :=
  if s ∈ a then a else a ++ [s]

/-- `a.update(b)` on sets modelled as duplicate-free lists. -/
def setUnionL (a b : List String) : List String :=
  b.foldl setAdd a

mutual
def _extract_code_globals (cache : GlobalsCache) :
    CodeObj → List String × GlobalsCache
  | CodeObj.mkCode i names instrs consts =>
      match cache.lookup i with
      | Option.some r => (r, cache)
      | Option.none =>
          let own : List String :=
            (_walk_global_ops instrs).foldl
              (fun acc ins =>
                if GLOBAL_OPS.contains ins.1 then
                  setAdd acc (names.getD ins.2 "")
                else acc) []
          let pr := extractConstsGlobals cache own consts
          (pr.1, (i, pr.1) :: pr.2)
termination_by co => sizeOf co

def extractConstsGlobals (cache : GlobalsCache) (acc : List String) :
    List (Option CodeObj) → List String × GlobalsCache
  | [] => (acc, cache)
  | Option.none :: rest => extractConstsGlobals cache acc rest
  | Option.some c :: rest =>
      let pr := _extract_code_globals cache c
      extractConstsGlobals pr.2 (setUnionL acc pr.1) rest
termination_by l => sizeOf l
end

/-- The names that are operands of global read/write/delete instructions of
one instruction stream (no recursion into constants). -/
def globalOperands (names : List String) (instrs : List (Nat × Nat)) :
    List String :=
  (instrs.filter (fun i => GLOBAL_OPS.contains i.1)).map
    (fun i => names.getD i.2 "")

mutual
/-- The set (as a list, possibly with duplicates) of global-instruction
operand names of a compiled unit and, recursively, of every nested compiled
sub-unit held among its constants. -/
def specGlobals : CodeObj → List String
  | CodeObj.mkCode _ names instrs consts =>
      globalOperands names instrs ++ specGlobalsL consts
termination_by co => sizeOf co

def specGlobalsL : List (Option CodeObj) → List String
  | [] => []
  | Option.none :: rest => specGlobalsL rest
  | Option.some c :: rest => specGlobals c ++ specGlobalsL rest
termination_by l => sizeOf l
end

mutual
/-- A heap of code objects: which code object lives at each identity
token.  Identity keying of the cache is faithful exactly when every code
object reachable from the argument is the one its token denotes in the
heap. -/
def TreeInHeap (heap : Nat → Option CodeObj) : CodeObj → Prop
  | CodeObj.mkCode i names instrs consts =>
      heap i = Option.some (CodeObj.mkCode i names instrs consts) ∧
      TreeInHeapL heap consts
termination_by co => sizeOf co

/-- `TreeInHeap` over a constant list. -/
def TreeInHeapL (heap : Nat → Option CodeObj) :
    List (Option CodeObj) → Prop
  | [] => True
  | Option.none :: rest => TreeInHeapL heap rest
  | Option.some c :: rest => TreeInHeap heap c ∧ TreeInHeapL heap rest
termination_by l => sizeOf l
end

/-- Soundness of a cache with respect to a heap: every cached entry is the
correct global-name set of the code object living at its key. -/
def CacheOK (heap : Nat → Option CodeObj) (cache : GlobalsCache) : Prop :=
  ∀ p ∈ cache, ∃ c, heap p.1 = Option.some c ∧
    (∀ s, s ∈ p.2 ↔ s ∈ specGlobals c)

/-! ## Claim theorems -/

/-- A dynamic class as `_dynamic_class_reduce` sees it on its first
serialization (not yet in any registry). -/
def c1Class : SrcClass :=
  { objId := 5, isNoneType := false, name := "C", bases := [0],
    module := "__main__", qualname := Option.some "f.C" }

/-- The initial (empty) destination tracker state. -/
def trackerInit : TrackerState := { byId := [], byClass := [], nextObj := 0 }

/-- C1: the claim says the first serialization of a dynamic class allocates
a tracking id, records the class/id pair in the weak registry, and emits an
encoding carrying a non-null tracking id, so two instances reconstruct with
an identical runtime type.  The code only does
`_DYNAMIC_CLASS_TRACKER_BY_CLASS.get(obj)`: on a first serialization the
registry is left untouched, the encoding carries `None`, and two
reconstructions from such encodings build two distinct classes. -/
theorem C1_first_serialization_allocates_nothing :
    (_dynamic_class_reduce [] c1Class).2 = [] ∧
    (_dynamic_class_reduce [] c1Class).1 =
      ClassReduceResult.reduceSkeleton
        { name := "C", bases := [0],
          type_kwargs :=
            [("__module__", Option.some "__main__"),
             ("__qualname__", Option.some "f.C")],
          class_tracker_id := Option.none } ∧
    dynId (_make_skeleton_class trackerInit 0 "C" [0] []
        Option.none Option.none).1 ≠
      dynId (_make_skeleton_class
        (_make_skeleton_class trackerInit 0 "C" [0] []
          Option.none Option.none).2
        0 "C" [0] [] Option.none Option.none).1 := by
  refine ⟨rfl, ?_, by decide⟩
  rfl

/-- C2: for a reconstruction call carrying a non-`None` tracking id already
present in the destination registry, `_make_skeleton_class` and
`_make_skeleton_enum` skip shell construction and body fill and return the
already-registered object itself with the registry unchanged, so repeated
occurrences of the same dynamic type are reference-equal. -/
theorem C2_registered_id_returns_registered_object
    (st : TrackerState) (tid : String) (obj : DynType)
    (h : st.byId.lookup tid = Option.some obj) :
    (∀ tc name bases kwargs extra,
       _make_skeleton_class st tc name bases kwargs (Option.some tid)
         extra = (obj, st)) ∧
    (∀ bases name qualname members module extra,
       _make_skeleton_enum st bases name qualname members module
         (Option.some tid) extra = (obj, st)) := by
  constructor
  · intro tc name bases kwargs extra
    simp [_make_skeleton_class, h]
  · intro bases name qualname members module extra
    simp [_make_skeleton_enum, h]

/-- A registered dynamic class used as the concrete input of the C2
witness. -/
def c2Obj : DynType :=
  DynType.cls { objId := 3, name := "D", bases := [], clsdict := [] }

/-- A tracker state in which `c2Obj` is registered under id `"tid1"`. -/
def c2St : TrackerState :=
  { byId := [("tid1", c2Obj)], byClass := [(3, "tid1")], nextObj := 4 }

/-- Witness for C2 at a concrete registered state. -/
theorem C2_registered_id_witness :
    _make_skeleton_class c2St 0 "D" [] [] (Option.some "tid1")
      Option.none = (c2Obj, c2St) ∧
    _make_skeleton_enum c2St [] "D" "D" [] "m" (Option.some "tid1")
      Option.none = (c2Obj, c2St) :=
  ⟨(C2_registered_id_returns_registered_object c2St "tid1" c2Obj
      rfl).1 0 "D" [] [] Option.none,
   (C2_registered_id_returns_registered_object c2St "tid1" c2Obj
      rfl).2 [] "D" "D" [] "m" Option.none⟩

/-- An empty-closure function shell, as built by
`func.__new__(type(func))` before `_function_setstate` runs. -/
def c3Shell : PyFunc := { dict := [], globals := [], closure := [Option.none] }

/-- C3: the claim says the restore procedure applies instance attributes by
field update and then clears-and-repopulates both the globals namespace and
the ordered closure cells from the captured state.  The code updates
`__dict__`, clears `__globals__` and dumps the whole `slotstate` mapping
into it (rather than the captured `__globals__` entry), and never touches
the closure cells: the first conjunct shows no call ever modifies
`closure`, and the concrete run shows the shell's cell stays empty while
the `__globals__`/`__closure__` slot entries end up as ordinary keys of the
globals dict. -/
theorem C3_setstate_never_restores_cells :
    (∀ obj state slotstate,
       (_function_setstate obj (state, slotstate)).closure = obj.closure) ∧
    _function_setstate c3Shell
        ([("attr", 7)], [("__globals__", 5), ("__closure__", 6)]) =
      { dict := [("attr", 7)],
        globals := [("__globals__", 5), ("__closure__", 6)],
        closure := [Option.none] } :=
  ⟨fun _ _ _ => rfl, by decide⟩

/-- C4: the claim says the cell reducer encodes an empty cell as the
distinguished sentinel, and a cell containing a value by its contents, so
that a value-containing cell never round-trips to a sentinel-valued one.
The code instead reads `cell_contents` unguarded — an empty cell raises
`ValueError` and is never encoded as the sentinel — and maps a cell whose
contents `is None` to the sentinel, so a `None`-containing cell encodes
(and hence round-trips) as the sentinel. -/
theorem C4_cell_reduce_sentinel_misuse :
    _cell_reduce { contents := Option.some PyVal.pyNone } =
      Except.ok PyVal.emptyCellSentinel ∧
    _cell_reduce { contents := Option.none } =
      Except.error "ValueError: Cell is empty" ∧
    (∀ v, _cell_reduce { contents := Option.some (PyVal.obj v) } =
      Except.ok (PyVal.obj v)) := by
  refine ⟨rfl, rfl, fun v => ?_⟩
  simp [_cell_reduce]

/-- C9: applied to a read-mode open stream, `_file_reduce` returns a
constructor/argument pair that reconstructs to a readable source yielding
the stream's remaining content; applied to a closed stream or a
non-read-mode (e.g. write-mode) stream it raises `PicklingError`
immediately. -/
theorem C9_file_reduce_read_ok_write_refused (f : PyFile) :
    (f.closed = false → f.mode = "r" →
       _file_reduce f = Except.ok (fileRead f) ∧
       fileRead (ioStringNew (fileRead f)) = fileRead f) ∧
    (f.closed = true →
       _file_reduce f = Except.error "Cannot pickle closed files") ∧
    (f.closed = false → f.mode ≠ "r" →
       _file_reduce f = Except.error "Cannot pickle files in write mode") := by
  refine ⟨fun h1 h2 => ⟨?_, ?_⟩, fun h => ?_, fun h1 h2 => ?_⟩
  · simp [_file_reduce, h1, h2]
  · simp [fileRead, ioStringNew]
  · simp [_file_reduce, h]
  · simp [_file_reduce, h1, h2]

/-- A read-mode stream with content `"abc"`. -/
def c9ReadFile : PyFile :=
  { mode := "r", closed := false, content := ['a', 'b', 'c'], pos := 0 }

/-- A write-mode stream. -/
def c9WriteFile : PyFile :=
  { mode := "w", closed := false, content := [], pos := 0 }

/-- A closed stream. -/
def c9ClosedFile : PyFile :=
  { mode := "r", closed := true, content := [], pos := 0 }

/-- Witness for C9: the `"abc"` scenario and the two refusals. -/
theorem C9_file_reduce_witness :
    (_file_reduce c9ReadFile = Except.ok ['a', 'b', 'c'] ∧
     fileRead (ioStringNew (fileRead c9ReadFile)) = fileRead c9ReadFile) ∧
    _file_reduce c9ClosedFile = Except.error "Cannot pickle closed files" ∧
    _file_reduce c9WriteFile =
      Except.error "Cannot pickle files in write mode" :=
  ⟨(C9_file_reduce_read_ok_write_refused c9ReadFile).1 rfl rfl,
   (C9_file_reduce_read_ok_write_refused c9ClosedFile).2.1 rfl,
   (C9_file_reduce_read_ok_write_refused c9WriteFile).2.2 rfl
     (by decide)⟩

/-- C7: `_should_pickle_by_reference` returns `false` (Value) whenever no
name is derivable for the object, whenever no owning module is found, and
whenever the owning module is the transient entry context `"__main__"`; an
object whose `__module__` is `"__main__"` is never reference-eligible. -/
theorem C7_value_when_unreferencable (obj : PyObjRef) (sys : Sys)
    (byValue : List String) (name : String) :
    (obj.dunderName = Option.none →
       _should_pickle_by_reference obj Option.none sys byValue = false) ∧
    (_whichmodule obj name sys = Option.none →
       _should_pickle_by_reference obj (Option.some name) sys byValue =
         false) ∧
    (_whichmodule obj name sys = Option.some "__main__" →
       _should_pickle_by_reference obj (Option.some name) sys byValue =
         false) ∧
    (obj.dunderModule = Option.some "__main__" →
       _should_pickle_by_reference obj (Option.some name) sys byValue =
         false) := by
  refine ⟨fun h => ?_, fun h => ?_, fun h => ?_, fun h => ?_⟩
  · simp [_should_pickle_by_reference, h]
  · simp [_should_pickle_by_reference, h]
  · simp [_should_pickle_by_reference, h]
  · have hm : _whichmodule obj name sys = Option.some "__main__" := by
      unfold _whichmodule
      by_cases ht : obj.isType ∧ obj.dunderModule = Option.some "__main__"
      · simp [ht]
      · simp [ht, h]
    simp [_should_pickle_by_reference, hm]

/-- An object with no derivable name (for the C7 witness). -/
def c7NoNameObj : PyObjRef :=
  { objId := 0, isType := false, dunderModule := Option.none,
    dunderName := Option.none }

/-- An object owned by the `__main__` entry context. -/
def c7MainObj : PyObjRef :=
  { objId := 1, isType := false, dunderModule := Option.some "__main__",
    dunderName := Option.some "g" }

/-- An empty `sys.modules`. -/
def c7EmptySys : Sys := { modules := [] }

/-- Witness for C7 at concrete inputs. -/
theorem C7_value_when_unreferencable_witness :
    _should_pickle_by_reference c7NoNameObj Option.none c7EmptySys [] =
      false ∧
    _should_pickle_by_reference c7NoNameObj (Option.some "g") c7EmptySys
      [] = false ∧
    _should_pickle_by_reference c7MainObj (Option.some "g") c7EmptySys
      [] = false ∧
    _should_pickle_by_reference c7MainObj (Option.some "h") c7EmptySys
      [] = false :=
  ⟨(C7_value_when_unreferencable c7NoNameObj c7EmptySys [] "g").1 rfl,
   (C7_value_when_unreferencable c7NoNameObj c7EmptySys [] "g").2.1 rfl,
   (C7_value_when_unreferencable c7MainObj c7EmptySys [] "g").2.2.1 rfl,
   (C7_value_when_unreferencable c7MainObj c7EmptySys [] "h").2.2.2 rfl⟩

/-- The match predicate of the `_whichmodule` scan loop: a candidate other
than `__main__`, present (not `None`), whose lookup of the name succeeds
and yields an object identical to the input. -/
def isScanMatch (objId : Nat) (name : String)
    (p : String × Option PyModule) : Bool :=
  !(p.1 == "__main__") &&
  (match p.2 with
   | Option.none => false
   | Option.some m =>
       match m.getattrib name with
       | LookupRes.raisedExc => false
       | LookupRes.found v => v == objId)

/-- C8: in the `_whichmodule` module scan, a candidate whose lookup raises
is swallowed and treated as a non-match (the scan result is the same as
without that candidate, never a propagated exception), and the scan returns
the first module whose lookup yields an object identical to the input, or
`None` when no candidate matches. -/
theorem C8_scan_swallows_and_returns_first_match (objId : Nat)
    (name : String) (mods : List (String × Option PyModule)) :
    (∀ mname m rest, m.getattrib name = LookupRes.raisedExc →
       whichScan objId name ((mname, Option.some m) :: rest) =
       whichScan objId name rest) ∧
    whichScan objId name mods =
      (mods.find? (isScanMatch objId name)).map Prod.fst := by
  constructor
  · intro mname m rest h
    by_cases hm : mname = "__main__"
    · simp [whichScan, hm]
    · simp [whichScan, hm, h]
  · induction mods with
    | nil => rfl
    | cons p rest ih =>
        obtain ⟨mn, om⟩ := p
        by_cases hm : mn = "__main__"
        · subst hm
          simp [whichScan, List.find?, isScanMatch, ih]
        · cases om with
          | none => simp [whichScan, List.find?, isScanMatch, hm, ih]
          | some m =>
              cases hg : m.getattrib name with
              | raisedExc =>
                  simp [whichScan, List.find?, isScanMatch, hm, hg, ih]
              | found v =>
                  have hm' : (mn == "__main__") = false :=
                    beq_eq_false_iff_ne.mpr hm
                  by_cases hv : v = objId
                  · subst hv
                    simp [whichScan, List.find?, isScanMatch, hm, hm', hg]
                  · have hv' : (v == objId) = false :=
                      beq_eq_false_iff_ne.mpr hv
                    simp [whichScan, List.find?, isScanMatch, hm, hm', hg,
                      hv, hv', ih]

/-- A module whose lookup of any name raises (for the C8 witness). -/
def c8RaisingModule : PyModule :=
  { getattrib := fun _ => LookupRes.raisedExc, file := Option.none }

/-- A module whose lookup of any name finds object 7. -/
def c8GoodModule : PyModule :=
  { getattrib := fun _ => LookupRes.found 7, file := Option.none }

/-- Witness for C8: a raising candidate is skipped and the first matching
candidate is returned. -/
theorem C8_scan_witness :
    whichScan 7 "f"
        [("bad", Option.some c8RaisingModule),
         ("good", Option.some c8GoodModule)] =
      whichScan 7 "f" [("good", Option.some c8GoodModule)] ∧
    whichScan 7 "f"
        [("bad", Option.some c8RaisingModule),
         ("good", Option.some c8GoodModule)] = Option.some "good" :=
  ⟨(C8_scan_swallows_and_returns_first_match 7 "f"
      [("good", Option.some c8GoodModule)]).1 "bad" c8RaisingModule
      [("good", Option.some c8GoodModule)] rfl,
   (C8_scan_swallows_and_returns_first_match 7 "f"
      [("bad", Option.some c8RaisingModule),
       ("good", Option.some c8GoodModule)]).2.trans rfl⟩

/-- The registered module is a member of the set after registration. -/
theorem mem_register_self (S : List String) (m : String) :
    m ∈ register_pickle_by_value S m := by
  by_cases h : m ∈ S <;> simp [register_pickle_by_value, h]

/-- Registering an already-registered module leaves the set unchanged. -/
theorem register_mem_eq (s : List String) (m : String) (h : m ∈ s) :
    register_pickle_by_value s m = s := by
  simp [register_pickle_by_value, h]

/-- C5: `register_pickle_by_value m` adds `m` to the by-value set consulted
by `_should_pickle_by_reference` (which subsequently returns `false` for
every object resolved to module `m`); registering twice equals registering
once; `unregister_pickle_by_value` restores the prior set (for a module not
registered before); and the default set is empty. -/
theorem C5_by_value_registration (S : List String) (m : String) :
    initialPickleByValueModules = [] ∧
    register_pickle_by_value (register_pickle_by_value S m) m =
      register_pickle_by_value S m ∧
    (∀ obj n sys, _whichmodule obj n sys = Option.some m →
       _should_pickle_by_reference obj (Option.some n) sys
         (register_pickle_by_value S m) = false) ∧
    (m ∉ S →
       unregister_pickle_by_value (register_pickle_by_value S m) m = S) := by
  refine ⟨rfl, ?_, ?_, ?_⟩
  · exact register_mem_eq _ m (mem_register_self S m)
  · intro obj n sys h
    have hmem := mem_register_self S m
    by_cases hm : m = "__main__"
    · simp [_should_pickle_by_reference, h, hm]
    · cases hsg : sysGet sys m with
      | none => simp [_should_pickle_by_reference, h, hm, hsg]
      | some mo => simp [_should_pickle_by_reference, h, hm, hsg, hmem]
  · intro h
    have hreg : register_pickle_by_value S m = m :: S := by
      simp [register_pickle_by_value, h]
    rw [hreg]
    unfold unregister_pickle_by_value
    rw [List.filter_cons]
    simp only [beq_self_eq_true, Bool.not_true, Bool.false_eq_true,
      if_false]
    exact List.filter_eq_self.mpr fun x hx => by
      simp only [bne_iff_ne, ne_eq, Bool.not_eq_true', beq_eq_false_iff_ne]
      exact fun e => h (e ▸ hx)

/-- An object whose `__module__` attribute is `"mod1"`. -/
def c5Obj : PyObjRef :=
  { objId := 2, isType := false, dunderModule := Option.some "mod1",
    dunderName := Option.some "g" }

/-- Witness for C5 at concrete inputs. -/
theorem C5_by_value_registration_witness :
    register_pickle_by_value (register_pickle_by_value [] "mod1") "mod1" =
      register_pickle_by_value [] "mod1" ∧
    _should_pickle_by_reference c5Obj (Option.some "g") c7EmptySys
      (register_pickle_by_value [] "mod1") = false ∧
    unregister_pickle_by_value (register_pickle_by_value [] "mod1")
      "mod1" = [] :=
  ⟨(C5_by_value_registration [] "mod1").2.1,
   (C5_by_value_registration [] "mod1").2.2.1 c5Obj "g" c7EmptySys rfl,
   (C5_by_value_registration [] "mod1").2.2.2 (by simp)⟩

/-! ### Association-list lemmas used by the `_extract_class_dict` claim -/

/-- A key absent from the key list looks up to `none`. -/
theorem lookup_eq_none_of_not_mem_keys {k : String} {d : PyDict}
    (h : k ∉ d.map Prod.fst) : d.lookup k = Option.none := by
  induction d with
  | nil => rfl
  | cons p rest ih =>
      have h1 : k ≠ p.1 := fun e => h (by simp [e])
      have h2 : k ∉ rest.map Prod.fst := fun hm =>
        h (by simp; right; simpa using hm)
      simp [List.lookup, beq_eq_false_iff_ne.mpr h1, ih h2]

/-- In a dict with unique keys, a member entry is what its key looks up
to. -/
theorem lookup_of_mem_nodup {k : String} {v : Nat} {d : PyDict}
    (hd : (d.map Prod.fst).Nodup) (h : (k, v) ∈ d) :
    d.lookup k = Option.some v := by
  induction d with
  | nil => cases h
  | cons p rest ih =>
      obtain ⟨a, b⟩ := p
      simp at hd
      rcases List.mem_cons.mp h with heq | hmem
      · cases heq
        simp [List.lookup]
      · have hka : k ≠ a := fun e => hd.1 v (e ▸ hmem)
        simp [List.lookup, beq_eq_false_iff_ne.mpr hka, ih hd.2 hmem]

/-- Filtering a dict keeps its keys unique. -/
theorem keys_nodup_filter (d : PyDict) (q : String × Nat → Bool)
    (hd : (d.map Prod.fst).Nodup) :
    ((d.filter q).map Prod.fst).Nodup :=
  ((List.filter_sublist d).map Prod.fst).nodup hd

/-- The loop of `_extract_class_dict` is a filter: starting from any
accumulator with unique keys, folding the body over an inherited dict with
unique keys removes exactly the entries whose value is identical to the
same-named inherited entry. -/
theorem foldl_extract_class_dict_eq (inherited : PyDict)
    (hinh : (inherited.map Prod.fst).Nodup) :
    ∀ acc : PyDict, (acc.map Prod.fst).Nodup →
      inherited.foldl extractClassDictStep acc =
        acc.filter
          (fun p => !(decide (inherited.lookup p.1 = Option.some p.2))) := by
  induction inherited with
  | nil =>
      intro acc hacc
      simp [List.lookup]
  | cons nv rest ih =>
      obtain ⟨n, v⟩ := nv
      rw [List.map_cons] at hinh
      have hn : n ∉ rest.map Prod.fst := (List.nodup_cons.mp hinh).1
      have hrest : (rest.map Prod.fst).Nodup := (List.nodup_cons.mp hinh).2
      intro acc hacc
      rw [List.foldl_cons]
      by_cases hl : acc.lookup n = Option.some v
      · have hstep : extractClassDictStep acc (n, v) = dictPop acc n := by
          simp [extractClassDictStep, hl]
        rw [hstep, ih hrest (dictPop acc n)
          (keys_nodup_filter acc _ hacc)]
        rw [dictPop, List.filter_filter]
        apply List.filter_congr
        intro p hp
        by_cases hpn : p.1 = n
        · have hps : acc.lookup p.1 = Option.some p.2 :=
            lookup_of_mem_nodup hacc hp
          have hpv : p.2 = v := by
            rw [hpn, hl] at hps
            exact (Option.some.inj hps).symm
          simp [List.lookup, hpn, hpv]
        · simp [List.lookup, beq_eq_false_iff_ne.mpr hpn]
      · have hstep : extractClassDictStep acc (n, v) = acc := by
          simp [extractClassDictStep, hl]
        rw [hstep, ih hrest acc hacc]
        apply List.filter_congr
        intro p hp
        by_cases hpn : p.1 = n
        · have hps : acc.lookup p.1 = Option.some p.2 :=
            lookup_of_mem_nodup hacc hp
          have hpv : p.2 ≠ v := fun e => hl (by rw [← hpn, hps, e])
          have hrn : rest.lookup n = Option.none :=
            lookup_eq_none_of_not_mem_keys hn
          simp [List.lookup, hpn, hrn, Ne.symm hpv]
        · simp [List.lookup, beq_eq_false_iff_ne.mpr hpn]

/-- C10: for a class with exactly one base, `_extract_class_dict` returns
the class dict with every entry whose value is identical (same object id)
to the same-named entry of the base's dict removed; for zero or several
bases it returns the class dict unchanged. -/
theorem C10_extract_class_dict (clsdict inherited : PyDict)
    (baseDicts : List PyDict)
    (hcls : (clsdict.map Prod.fst).Nodup)
    (hinh : (inherited.map Prod.fst).Nodup) :
    (_extract_class_dict clsdict [inherited] =
       clsdict.filter
         (fun p => !(decide (inherited.lookup p.1 = Option.some p.2)))) ∧
    (baseDicts.length ≠ 1 →
       _extract_class_dict clsdict baseDicts = clsdict) := by
  constructor
  · exact foldl_extract_class_dict_eq inherited hinh clsdict hcls
  · intro hlen
    match baseDicts, hlen with
    | [], _ => rfl
    | _ :: _ :: _, _ => rfl
    | [b], h => exact absurd rfl h

/-- Witness for C10: a class dict with one inherited-identical entry, one
shadowing entry and one own entry, over a single base. -/
theorem C10_extract_class_dict_witness :
    _extract_class_dict [("a", 1), ("b", 2), ("c", 3)]
        [[("a", 1), ("b", 9)]] = [("b", 2), ("c", 3)] ∧
    _extract_class_dict [("a", 1)] [] = [("a", 1)] :=
  ⟨((C10_extract_class_dict [("a", 1), ("b", 2), ("c", 3)]
      [("a", 1), ("b", 9)] [] (by decide) (by decide)).1).trans
      (by decide),
   (C10_extract_class_dict [("a", 1)] [] [] (by decide) (by decide)).2
      (by decide)⟩

/-! ### Lemmas for the `_extract_code_globals` claim -/

/-- Membership after a set `add`. -/
theorem mem_setAdd {a : List String} {x s : String} :
    s ∈ setAdd a x ↔ s ∈ a ∨ s = x := by
  by_cases h : x ∈ a
  · simp only [setAdd, if_pos h]
    constructor
    · exact Or.inl
    · rintro (hs | rfl)
      · exact hs
      · exact h
  · simp [setAdd, h]

/-- Membership after a set `update`. -/
theorem mem_setUnionL {s : String} {b : List String} :
    ∀ {a : List String}, s ∈ setUnionL a b ↔ s ∈ a ∨ s ∈ b := by
  induction b with
  | nil => intro a; simp [setUnionL]
  | cons x xs ih =>
      intro a
      simp only [setUnionL, List.foldl_cons] at *
      rw [ih, mem_setAdd]
      simp only [List.mem_cons]
      tauto

/-- Membership in a conditional `setAdd` fold. -/
theorem mem_foldl_setAddIf {ι : Type} (c : ι → Bool) (f : ι → String) :
    ∀ (l : List ι) (acc : List String) (s : String),
      s ∈ l.foldl (fun a i => if c i then setAdd a (f i) else a) acc ↔
        s ∈ acc ∨ ∃ i ∈ l, c i ∧ f i = s := by
  intro l
  induction l with
  | nil => intro acc s; simp
  | cons x xs ih =>
      intro acc s
      rw [List.foldl_cons]
      by_cases hx : c x
      · rw [if_pos hx, ih, mem_setAdd]
        simp only [List.mem_cons, hx]
        constructor
        · rintro ((hs | rfl) | ⟨i, hi, hci, hfi⟩)
          · exact Or.inl hs
          · exact Or.inr ⟨x, Or.inl rfl, hx, rfl⟩
          · exact Or.inr ⟨i, Or.inr hi, hci, hfi⟩
        · rintro (hs | ⟨i, (rfl | hi), hci, hfi⟩)
          · exact Or.inl (Or.inl hs)
          · exact Or.inl (Or.inr hfi.symm)
          · exact Or.inr ⟨i, hi, hci, hfi⟩
      · rw [if_neg hx, ih]
        simp only [List.mem_cons]
        constructor
        · rintro (hs | ⟨i, hi, hci, hfi⟩)
          · exact Or.inl hs
          · exact Or.inr ⟨i, Or.inr hi, hci, hfi⟩
        · rintro (hs | ⟨i, (rfl | hi), hci, hfi⟩)
          · exact Or.inl hs
          · exact absurd hci hx
          · exact Or.inr ⟨i, hi, hci, hfi⟩

/-- The instruction-stream fold of `_extract_code_globals` collects exactly
the global-instruction operands. -/
theorem mem_own_fold (names : List String) (instrs : List (Nat × Nat))
    (s : String) :
    (s ∈ (_walk_global_ops instrs).foldl
        (fun acc ins =>
          if GLOBAL_OPS.contains ins.1 then
            setAdd acc (names.getD ins.2 "")
          else acc) []) ↔
      s ∈ globalOperands names instrs := by
  rw [mem_foldl_setAddIf]
  constructor
  · rintro (h | ⟨i, hi, _, hf⟩)
    · cases h
    · exact List.mem_map.mpr ⟨i, hi, hf⟩
  · intro hm
    obtain ⟨i, hi, hf⟩ := List.mem_map.mp hm
    exact Or.inr ⟨i, hi, (List.mem_filter.mp hi).2, hf⟩

/-- A successful cache lookup comes from a cache entry. -/
theorem cache_lookup_mem {cache : GlobalsCache} {i : Nat}
    {r : List String} (h : cache.lookup i = Option.some r) :
    (i, r) ∈ cache := by
  induction cache with
  | nil => cases h
  | cons p rest ih =>
      obtain ⟨k, v⟩ := p
      by_cases hk : i = k
      · subst hk
        simp [List.lookup] at h
        subst h
        exact List.mem_cons_self _ _
      · simp [List.lookup, beq_eq_false_iff_ne.mpr hk] at h
        exact List.mem_cons_of_mem _ (ih h)

/-- Memoization: immediately re-running `_extract_code_globals` on the same
unit with the cache produced by the first run returns the very same
result/cache pair. -/
theorem extract_code_globals_memo (cache : GlobalsCache) (co : CodeObj) :
    _extract_code_globals (_extract_code_globals cache co).2 co =
      _extract_code_globals cache co := by
  cases co with
  | mkCode i names instrs consts =>
      cases hc : List.lookup i cache with
      | some r => simp [_extract_code_globals, hc]
      | none =>
          simp only [_extract_code_globals, hc]
          simp [List.lookup]

mutual
/-- Soundness of `_extract_code_globals` under a sound cache: the returned
name list is exactly the recursive global-operand set, and the returned
cache is sound again. -/
theorem extract_code_globals_sound (heap : Nat → Option CodeObj)
    (cache : GlobalsCache) (co : CodeObj) (hco : TreeInHeap heap co)
    (hc : CacheOK heap cache) :
    (∀ s, s ∈ (_extract_code_globals cache co).1 ↔ s ∈ specGlobals co) ∧
    CacheOK heap (_extract_code_globals cache co).2 := by
  cases co with
  | mkCode i names instrs consts =>
      rw [TreeInHeap] at hco
      cases hl : List.lookup i cache with
      | some r =>
          obtain ⟨c, hhc, hcs⟩ := hc (i, r) (cache_lookup_mem hl)
          have hcc : c = CodeObj.mkCode i names instrs consts := by
            rw [hco.1] at hhc
            exact (Option.some.inj hhc).symm
          subst hcc
          constructor
          · intro s
            simp only [_extract_code_globals, hl]
            exact hcs s
          · simp only [_extract_code_globals, hl]
            exact hc
      | none =>
          have hrec := extractConstsGlobals_sound heap cache
            ((_walk_global_ops instrs).foldl
              (fun acc ins =>
                if GLOBAL_OPS.contains ins.1 then
                  setAdd acc (names.getD ins.2 "")
                else acc) [])
            consts hco.2 hc
          constructor
          · intro s
            simp only [_extract_code_globals, hl]
            rw [(hrec.1 s), mem_own_fold]
            rw [specGlobals]
            simp [List.mem_append]
          · simp only [_extract_code_globals, hl]
            intro p hp
            rcases List.mem_cons.mp hp with heq | hmem
            · subst heq
              refine ⟨CodeObj.mkCode i names instrs consts, hco.1, ?_⟩
              intro s
              rw [(hrec.1 s), mem_own_fold, specGlobals]
              simp [List.mem_append]
            · exact hrec.2 p hmem
termination_by sizeOf co

/-- Soundness of the constant-list walk of `_extract_code_globals`. -/
theorem extractConstsGlobals_sound (heap : Nat → Option CodeObj)
    (cache : GlobalsCache) (acc : List String)
    (cs : List (Option CodeObj)) (hcs : TreeInHeapL heap cs)
    (hc : CacheOK heap cache) :
    (∀ s, s ∈ (extractConstsGlobals cache acc cs).1 ↔
       s ∈ acc ∨ s ∈ specGlobalsL cs) ∧
    CacheOK heap (extractConstsGlobals cache acc cs).2 := by
  cases cs with
  | nil =>
      constructor
      · intro s
        simp [extractConstsGlobals, specGlobalsL]
      · simpa [extractConstsGlobals] using hc
  | cons hd rest =>
      cases hd with
      | none =>
          rw [TreeInHeapL] at hcs
          have hrec := extractConstsGlobals_sound heap cache acc rest hcs hc
          constructor
          · intro s
            simp only [extractConstsGlobals, specGlobalsL]
            exact hrec.1 s
          · simp only [extractConstsGlobals]
            exact hrec.2
      | some c =>
          rw [TreeInHeapL] at hcs
          have h1 := extract_code_globals_sound heap cache c hcs.1 hc
          have h2 := extractConstsGlobals_sound heap
            (_extract_code_globals cache c).2
            (setUnionL acc (_extract_code_globals cache c).1) rest
            hcs.2 h1.2
          constructor
          · intro s
            simp only [extractConstsGlobals, specGlobalsL]
            rw [h2.1 s, mem_setUnionL, h1.1 s]
            simp [List.mem_append]
            tauto
          · simp only [extractConstsGlobals]
            exact h2.2
termination_by sizeOf cs
end

/-- C6: under a sound memo cache (in particular the initial empty one),
`_extract_code_globals` returns exactly the set of names that are operands
of global read/write/delete instructions of the unit and, recursively, of
every nested compiled sub-unit among its constants; and the result is
memoized per unit, so an immediate second call on the same unit returns the
same result. -/
theorem C6_extract_code_globals_exact_and_memoized
    (heap : Nat → Option CodeObj) (cache : GlobalsCache) (co : CodeObj)
    (hco : TreeInHeap heap co) (hc : CacheOK heap cache) :
    (∀ s, s ∈ (_extract_code_globals cache co).1 ↔ s ∈ specGlobals co) ∧
    _extract_code_globals (_extract_code_globals cache co).2 co =
      _extract_code_globals cache co :=
  ⟨(extract_code_globals_sound heap cache co hco hc).1,
   extract_code_globals_memo cache co⟩

/-- A nested code object: `del z` at the global level. -/
def c6Inner : CodeObj := CodeObj.mkCode 1 ["z"] [(98, 0)] []

/-- An outer code object: `LOAD_GLOBAL x`, a non-global instruction, and
`STORE_GLOBAL y`, with one non-code constant and `c6Inner` nested. -/
def c6Outer : CodeObj :=
  CodeObj.mkCode 0 ["x", "y"] [(116, 0), (1, 1), (97, 1)]
    [Option.none, Option.some c6Inner]

/-- The heap in which `c6Outer`/`c6Inner` live at their identity tokens. -/
def c6Heap : Nat → Option CodeObj := fun n =>
  if n = 0 then Option.some c6Outer
  else if n = 1 then Option.some c6Inner
  else Option.none

/-- Witness for C6 on a concrete two-level code object and the initial
empty cache. -/
theorem C6_extract_code_globals_witness :
    ("z" ∈ (_extract_code_globals [] c6Outer).1 ↔
       "z" ∈ specGlobals c6Outer) ∧
    _extract_code_globals (_extract_code_globals [] c6Outer).2 c6Outer =
      _extract_code_globals [] c6Outer :=
  ⟨(C6_extract_code_globals_exact_and_memoized c6Heap [] c6Outer
      (by simp [TreeInHeap, TreeInHeapL, c6Heap, c6Outer, c6Inner])
      (by intro p hp; cases hp)).1 "z",
   (C6_extract_code_globals_exact_and_memoized c6Heap [] c6Outer
      (by simp [TreeInHeap, TreeInHeapL, c6Heap, c6Outer, c6Inner])
      (by intro p hp; cases hp)).2⟩

end Cloudpickle
